import Mathlib

/-!
# Verification of the LFG subscription bot core

A shallow embedding of the game-subscription logic of the bot:
Python string primitives (`lower`, `strip`, `replace`, `title`, substring
test), decimal rendering of integers (as used by f-string interpolation),
the Firestore-backed subscription store (documents addressed by
guild-scoped paths, `ArrayUnion` / `ArrayRemove` field transforms,
collection streams), and the slash-command handlers built on them
(`addgame`, `removegame`, `lfg`, `listgames`, `game_autocomplete`).
-/

namespace LFG

/-! ## Python string primitives, modelled on lists of characters -/

/-- Python `str.lower()` (basic-latin model, per `Char.toLower`). -/
def pyLower (s : List Char) : List Char := s.map Char.toLower

/-- The whitespace characters stripped by Python `str.strip()`. -/
def pyIsSpace (c : Char) : Bool :=
  c = ' ' || c = '\t' || c = '\n' || c = '\r' || c = '\x0b' || c = '\x0c'

/-- Python `str.strip()`: drop leading and trailing whitespace. -/
def pyStrip (s : List Char) : List Char :=
  ((s.dropWhile pyIsSpace).reverse.dropWhile pyIsSpace).reverse

/-- Python `str.replace(a, b)` for single-character `a`, `b`: scan the
string and replace every occurrence of `a` by `b`. -/
def pyReplaceChar (a b : Char) : List Char → List Char
  | [] => []
  | c :: cs => (if c = a then b else c) :: pyReplaceChar a b cs

/-- Python `str.title()` (basic-latin model): the first letter of every
run of letters is uppercased, subsequent letters are lowercased, other
characters are unchanged.  The `Bool` argument records whether the
previous character was a letter. -/
def pyTitleAux : Bool → List Char → List Char
  | _, [] => []
  | prevAlpha, c :: cs =>
    if c.isAlpha then
      (if prevAlpha then c.toLower else c.toUpper) :: pyTitleAux true cs
    else
      c :: pyTitleAux false cs

/-- Python `str.title()`. -/
def pyTitle (s : List Char) : List Char := pyTitleAux false s

/-- Python substring test `needle in hay`. -/
def pyContains (needle : List Char) : List Char → Bool
  | [] => needle.isEmpty
  | c :: cs => needle.isPrefixOf (c :: cs) || pyContains needle cs

/-- Python `sep.join(parts)`. -/
def pyJoin (sep : String) : List String → String
  | [] => ""
  | [x] => x
  | x :: xs => x ++ sep ++ pyJoin sep xs

/-! ### Basic lemmas about the string primitives -/

theorem char_toNat_ofNat_valid {n : Nat} (h : n.isValidChar) :
    (Char.ofNat n).toNat = n := by
  simp only [Char.ofNat, dif_pos h, Char.ofNatAux, Char.toNat, UInt32.toNat]
  simp [BitVec.toNat_ofNatLt]

theorem char_toLower_toLower (c : Char) : c.toLower.toLower = c.toLower := by
  unfold Char.toLower
  by_cases h : c.toNat ≥ 65 ∧ c.toNat ≤ 90
  · rw [if_pos h]
    have hv : (c.toNat + 32).isValidChar := by
      left
      omega
    rw [char_toNat_ofNat_valid hv, if_neg (by omega)]
  · rw [if_neg h, if_neg h]

theorem pyLower_idem (s : List Char) : pyLower (pyLower s) = pyLower s := by
  unfold pyLower
  rw [List.map_map]
  exact List.map_congr_left fun c _ => char_toLower_toLower c

/-- `toLower` never produces a space-like character from a non-space one,
because it only moves basic-latin uppercase letters to lowercase. -/
theorem pyIsSpace_toLower (c : Char) : pyIsSpace c.toLower = pyIsSpace c := by
  unfold Char.toLower
  by_cases h : c.toNat ≥ 65 ∧ c.toNat ≤ 90
  · rw [if_pos h]
    have hv : (c.toNat + 32).isValidChar := by left; omega
    have h1 : (Char.ofNat (c.toNat + 32)).toNat = c.toNat + 32 :=
      char_toNat_ofNat_valid hv
    have hc : ∀ d : Char, 97 ≤ d.toNat → d.toNat ≤ 122 → pyIsSpace d = false := by
      intro d h97 h122
      simp only [pyIsSpace, Bool.or_eq_false_iff, decide_eq_false_iff_not]
      refine ⟨⟨⟨⟨⟨?_, ?_⟩, ?_⟩, ?_⟩, ?_⟩, ?_⟩ <;>
        (intro he; rw [he] at h97; exact absurd h97 (by decide))
    have hs : ∀ d : Char, 65 ≤ d.toNat → d.toNat ≤ 90 → pyIsSpace d = false := by
      intro d h65 h90
      simp only [pyIsSpace, Bool.or_eq_false_iff, decide_eq_false_iff_not]
      refine ⟨⟨⟨⟨⟨?_, ?_⟩, ?_⟩, ?_⟩, ?_⟩, ?_⟩ <;>
        (intro he; rw [he] at h65; exact absurd h65 (by decide))
    rw [hc _ (by omega) (by omega), hs _ (by omega) (by omega)]
  · rw [if_neg h]

/-! ## Decimal rendering of integers (Python `str(int)` / f-string interpolation) -/

/-- Fueled producer of the decimal digits of `n` (most significant first),
prepended to `acc`.  Mirrors the standard division loop used to print
integers; the fuel argument only guarantees termination. -/
def natCharsAux : Nat → Nat → List Char → List Char
  | 0, _, acc => acc
  | fuel + 1, n, acc =>
    if n < 10 then Nat.digitChar n :: acc
    else natCharsAux fuel (n / 10) (Nat.digitChar (n % 10) :: acc)

/-- The decimal rendering of a natural number, as Python `str(n)`
produces it inside an f-string. -/
def natChars (n : Nat) : List Char := natCharsAux (n + 1) n []

theorem natCharsAux_append (fuel : Nat) :
    ∀ n acc, natCharsAux fuel n acc = natCharsAux fuel n [] ++ acc := by
  induction fuel with
  | zero => intro n acc; simp [natCharsAux]
  | succ fuel ih =>
    intro n acc
    by_cases h : n < 10
    · simp [natCharsAux, h]
    · simp only [natCharsAux, if_neg h]
      rw [ih (n / 10) (Nat.digitChar (n % 10) :: acc),
        ih (n / 10) [Nat.digitChar (n % 10)], List.append_assoc]
      rfl

theorem natCharsAux_fuel (n : Nat) : ∀ f1 f2, n < 10 ^ f1 → n < 10 ^ f2 →
    0 < f1 → 0 < f2 → natCharsAux f1 n [] = natCharsAux f2 n [] := by
  induction n using Nat.strong_induction_on with
  | _ n ih =>
    intro f1 f2 hb1 hb2 hp1 hp2
    obtain ⟨a, rfl⟩ := Nat.exists_eq_succ_of_ne_zero (Nat.pos_iff_ne_zero.mp hp1)
    obtain ⟨b, rfl⟩ := Nat.exists_eq_succ_of_ne_zero (Nat.pos_iff_ne_zero.mp hp2)
    by_cases h : n < 10
    · simp [natCharsAux, h]
    · simp only [natCharsAux, if_neg h]
      rw [natCharsAux_append a, natCharsAux_append b]
      have hdiv : n / 10 < n := Nat.div_lt_self (by omega) (by omega)
      have ha0 : 0 < a := by
        rcases Nat.eq_zero_or_pos a with h0 | h0
        · subst h0; simp at hb1; omega
        · exact h0
      have hb0 : 0 < b := by
        rcases Nat.eq_zero_or_pos b with h0 | h0
        · subst h0; simp at hb2; omega
        · exact h0
      have hba : n / 10 < 10 ^ a := by
        apply Nat.div_lt_of_lt_mul
        calc n < 10 ^ (a + 1) := hb1
        _ = 10 * 10 ^ a := by ring
      have hbb : n / 10 < 10 ^ b := by
        apply Nat.div_lt_of_lt_mul
        calc n < 10 ^ (b + 1) := hb2
        _ = 10 * 10 ^ b := by ring
      rw [ih (n / 10) hdiv a b hba hbb ha0 hb0]

theorem natChars_lt (n : Nat) (h : n < 10) : natChars n = [Nat.digitChar n] := by
  simp [natChars, natCharsAux, h]

theorem natChars_ge (n : Nat) (h : 10 ≤ n) :
    natChars n = natChars (n / 10) ++ [Nat.digitChar (n % 10)] := by
  unfold natChars
  have h1 : ¬ n < 10 := by omega
  simp only [natCharsAux, if_neg h1]
  rw [natCharsAux_append n (n / 10)]
  congr 1
  have hn : 0 < n := by omega
  exact natCharsAux_fuel (n / 10) n (n / 10 + 1)
    (lt_trans (Nat.div_lt_self hn (by omega)) (Nat.lt_pow_self (by omega) n))
    (lt_of_lt_of_le (Nat.lt_pow_self (by omega) (n / 10))
      (Nat.pow_le_pow_right (by omega) (Nat.le_succ _)))
    hn (Nat.succ_pos _)

/-- Value of a digit character. -/
def digitVal (c : Char) : Nat := c.toNat - 48

theorem digitVal_digitChar (d : Nat) (h : d < 10) :
    digitVal (Nat.digitChar d) = d := by
  interval_cases d <;> rfl

theorem digitChar_ne_slash (d : Nat) (h : d < 10) : Nat.digitChar d ≠ '/' := by
  interval_cases d <;> decide

/-- Read a decimal digit string back into the number it denotes. -/
def charsVal (l : List Char) : Nat := l.foldl (fun a c => 10 * a + digitVal c) 0

theorem charsVal_natChars (n : Nat) : charsVal (natChars n) = n := by
  induction n using Nat.strong_induction_on with
  | _ n ih =>
    by_cases h : n < 10
    · rw [natChars_lt n h]
      simp [charsVal, digitVal_digitChar n h]
    · rw [natChars_ge n (by omega)]
      unfold charsVal
      rw [List.foldl_append]
      have : List.foldl (fun a c => 10 * a + digitVal c) 0 (natChars (n / 10)) = n / 10 :=
        ih (n / 10) (Nat.div_lt_self (by omega) (by omega))
      rw [this]
      simp only [List.foldl_cons, List.foldl_nil]
      rw [digitVal_digitChar (n % 10) (Nat.mod_lt n (by omega))]
      omega

theorem natChars_inj {m n : Nat} (h : natChars m = natChars n) : m = n := by
  have := charsVal_natChars m
  rw [h, charsVal_natChars n] at this
  omega

theorem natChars_no_slash (n : Nat) : '/' ∉ natChars n := by
  induction n using Nat.strong_induction_on with
  | _ n ih =>
    by_cases h : n < 10
    · rw [natChars_lt n h]
      intro hmem
      simp at hmem
      exact digitChar_ne_slash n h hmem.symm
    · rw [natChars_ge n (by omega)]
      intro hmem
      rcases List.mem_append.mp hmem with hm | hm
      · exact ih (n / 10) (Nat.div_lt_self (by omega) (by omega)) hm
      · simp at hm
        exact digitChar_ne_slash (n % 10) (Nat.mod_lt n (by omega)) hm.symm

/-! ## Firestore paths (multi-server layout) -/

/-- `config.get_lfg_collection_path()`: the root collection name. -/
def get_lfg_collection_path : String := "lfg_subscriptions"

/-- `get_guild_collection_path(guild_id)`:
the f-string `"{config.get_lfg_collection_path()}/{guild_id}/games"`. -/
def get_guild_collection_path (guild_id : Nat) : List Char :=
  get_lfg_collection_path.data ++ '/' :: natChars guild_id ++ '/' :: "games".data

/-- `get_game_doc_path(guild_id, game_name)`:
the f-string `"{get_guild_collection_path(guild_id)}/{game_name}"`. -/
def get_game_doc_path (guild_id : Nat) (game_name : List Char) : List Char :=
  get_guild_collection_path guild_id ++ '/' :: game_name

/-- Two slash-free segments followed by a slash determine each other:
splitting at the first slash is unambiguous. -/
theorem slashfree_split : ∀ (d1 : List Char) {d2 r1 r2 : List Char},
    '/' ∉ d1 → '/' ∉ d2 → d1 ++ '/' :: r1 = d2 ++ '/' :: r2 → d1 = d2 ∧ r1 = r2 := by
  intro d1
  induction d1 with
  | nil =>
    intro d2 r1 r2 _ h2 heq
    cases d2 with
    | nil => simpa using heq
    | cons c cs =>
      simp only [List.nil_append, List.cons_append, List.cons.injEq] at heq
      rcases heq with ⟨hc, -⟩
      exact absurd (by rw [← hc]; exact List.mem_cons_self '/' cs) h2
  | cons c cs ih =>
    intro d2 r1 r2 h1 h2 heq
    cases d2 with
    | nil =>
      simp only [List.nil_append, List.cons_append, List.cons.injEq] at heq
      rcases heq with ⟨hc, -⟩
      exact absurd (by rw [hc]; exact List.mem_cons_self '/' cs) h1
    | cons e es =>
      simp only [List.cons_append, List.cons.injEq] at heq
      rcases heq with ⟨hc, htl⟩
      have h1' : '/' ∉ cs := fun hm => h1 (List.mem_cons_of_mem c hm)
      have h2' : '/' ∉ es := fun hm => h2 (List.mem_cons_of_mem e hm)
      obtain ⟨hd, hr⟩ := ih h1' h2' htl
      exact ⟨by rw [hc, hd], hr⟩

theorem guild_digits_split {g1 g2 : Nat} {t1 t2 : List Char}
    (h : natChars g1 ++ '/' :: t1 = natChars g2 ++ '/' :: t2) :
    g1 = g2 ∧ t1 = t2 := by
  obtain ⟨hd, ht⟩ :=
    slashfree_split _ (natChars_no_slash g1) (natChars_no_slash g2) h
  exact ⟨natChars_inj hd, ht⟩

/-- A game document path determines its guild and game name. -/
theorem get_game_doc_path_inj {g1 g2 : Nat} {n1 n2 : List Char}
    (h : get_game_doc_path g1 n1 = get_game_doc_path g2 n2) :
    g1 = g2 ∧ n1 = n2 := by
  unfold get_game_doc_path get_guild_collection_path at h
  simp only [List.append_assoc, List.cons_append] at h
  have h2 := List.append_cancel_left h
  simp only [List.cons.injEq, true_and] at h2
  obtain ⟨hg, ht⟩ := guild_digits_split h2
  refine ⟨hg, ?_⟩
  simpa using ht

/-! ## The Firestore document store -/

/-- The backing store: documents addressed by slash-separated paths, each
holding its `subscribers` array.  `α` is the subscriber-id type (`Nat`,
the raw integer id, in the guild-scoped revision). -/
abbrev Store (α : Type) := List (List Char × List α)

def lookupDoc {α : Type} : Store α → List Char → Option (List α)
  | [], _ => none
  | (k, v) :: rest, key => if k = key then some v else lookupDoc rest key

def setDoc {α : Type} : Store α → List Char → List α → Store α
  | [], key, v => [(key, v)]
  | (k, w) :: rest, key, v =>
    if k = key then (key, v) :: rest else (k, w) :: setDoc rest key v

/-- `firestore.ArrayUnion`: append the elements not already present. -/
def arrayUnion {α : Type} [DecidableEq α] (arr new : List α) : List α :=
  arr ++ new.filter (fun x => decide (x ∉ arr))

/-- `firestore.ArrayRemove`: remove all occurrences of the elements. -/
def arrayRemove {α : Type} [DecidableEq α] (arr rem : List α) : List α :=
  arr.filter (fun x => decide (x ∉ rem))

/-- `add_subscription_sync(doc_path, user_id)`:
`set({'subscribers': ArrayUnion([user_id])}, merge=True)` — an upsert,
the document is created when absent. -/
def add_subscription_sync {α : Type} [DecidableEq α]
    (st : Store α) (doc_path : List Char) (user_id : α) : Store α :=
  match lookupDoc st doc_path with
  | some subs => setDoc st doc_path (arrayUnion subs [user_id])
  | none => setDoc st doc_path (arrayUnion [] [user_id])

/-- `remove_subscription_sync(doc_path, user_id)`:
`update({'subscribers': ArrayRemove([user_id])})`.
`DocumentReference.update` raises NotFound when the document is absent,
modelled by `Except.error`. -/
def remove_subscription_sync {α : Type} [DecidableEq α]
    (st : Store α) (doc_path : List Char) (user_id : α) :
    Except Unit (Store α) :=
  match lookupDoc st doc_path with
  | some subs => Except.ok (setDoc st doc_path (arrayRemove subs [user_id]))
  | none => Except.error ()

/-- `get_game_subscribers_sync(doc_path)`: the subscribers array of the
document, or `[]` when the snapshot does not exist. -/
def get_game_subscribers_sync (st : Store Nat) (doc_path : List Char) : List Nat :=
  match lookupDoc st doc_path with
  | some subs => subs
  | none => []

/-- Drop `p` from the front of `k`; `none` when `p` is not a leading
piece of `k`. -/
def dropStart : List Char → List Char → Option (List Char)
  | [], k => some k
  | _ :: _, [] => none
  | p :: ps, c :: cs => if c = p then dropStart ps cs else none

/-- The document id of `key` when `key` addresses a direct child of the
collection `coll` (`key = coll ++ "/" ++ id` with a slash-free id); a
Firestore collection stream returns exactly these documents. -/
def childId? (coll key : List Char) : Option (List Char) :=
  match dropStart (coll ++ ['/']) key with
  | some docId => if '/' ∈ docId then none else some docId
  | none => none

/-- `get_game_names_sync(guild_id)`: every document id in the guild's
`games` collection. -/
def get_game_names_sync (st : Store Nat) (guild_id : Nat) : List (List Char) :=
  st.filterMap (fun e => childId? (get_guild_collection_path guild_id) e.1)

/-- `get_all_subscribed_games_sync(guild_id)`: name and subscriber count
of every document in the guild's collection whose array is non-empty. -/
def get_all_subscribed_games_sync (st : Store Nat) (guild_id : Nat) :
    List (List Char × Nat) :=
  st.filterMap (fun e =>
    match childId? (get_guild_collection_path guild_id) e.1 with
    | some docId => if e.2.isEmpty then none else some (docId, e.2.length)
    | none => none)

/-- `get_user_subscribed_games_sync(guild_id, user_id)`: the
`array_contains` query — ids of the guild's documents whose array holds
`user_id`. -/
def get_user_subscribed_games_sync (st : Store Nat) (guild_id : Nat)
    (user_id : Nat) : List (List Char) :=
  st.filterMap (fun e =>
    match childId? (get_guild_collection_path guild_id) e.1 with
    | some docId => if user_id ∈ e.2 then some docId else none
    | none => none)

/-! ### Store and path lemmas -/

theorem dropStart_eq_some : ∀ (p k r : List Char),
    dropStart p k = some r ↔ k = p ++ r := by
  intro p
  induction p with
  | nil =>
    intro k r
    simp [dropStart, eq_comm]
  | cons c cs ih =>
    intro k r
    cases k with
    | nil => simp [dropStart]
    | cons e es =>
      by_cases h : e = c
      · subst h
        simp only [dropStart, if_pos rfl, List.cons_append, List.cons.injEq,
          true_and]
        exact ih es r
      · simp [dropStart, h]

theorem childId?_eq_some {coll key docId : List Char} :
    childId? coll key = some docId ↔
      key = coll ++ '/' :: docId ∧ '/' ∉ docId := by
  unfold childId?
  constructor
  · intro h
    rcases hd : dropStart (coll ++ ['/']) key with - | r
    · rw [hd] at h; exact absurd h (by simp)
    · rw [hd] at h
      dsimp only at h
      by_cases hs : '/' ∈ r
      · rw [if_pos hs] at h; exact absurd h (by simp)
      · rw [if_neg hs] at h
        simp only [Option.some.injEq] at h
        subst h
        have := (dropStart_eq_some _ key r).mp hd
        simp only [List.append_assoc, List.cons_append, List.nil_append] at this
        exact ⟨this, hs⟩
  · rintro ⟨hk, hs⟩
    have : dropStart (coll ++ ['/']) key = some docId := by
      rw [dropStart_eq_some]
      simp [hk]
    rw [this]
    dsimp only
    rw [if_neg hs]

/-- Documents of distinct guilds have distinct paths. -/
theorem doc_path_ne {g1 g2 : Nat} (hg : g1 ≠ g2) (n1 n2 : List Char) :
    get_game_doc_path g1 n1 ≠ get_game_doc_path g2 n2 :=
  fun h => hg (get_game_doc_path_inj h).1

/-- A document written under guild `g1` is never streamed by the
collection of a different guild `g2`, whatever the game name is. -/
theorem childId?_other_guild {g1 g2 : Nat} (hg : g1 ≠ g2) (n : List Char) :
    childId? (get_guild_collection_path g2) (get_game_doc_path g1 n) = none := by
  rcases h : childId? (get_guild_collection_path g2) (get_game_doc_path g1 n)
    with - | docId
  · rfl
  · exfalso
    obtain ⟨hk, -⟩ := childId?_eq_some.mp h
    unfold get_game_doc_path get_guild_collection_path at hk
    simp only [List.append_assoc, List.cons_append] at hk
    have h2 := List.append_cancel_left hk
    simp only [List.cons.injEq, true_and] at h2
    exact hg (guild_digits_split h2).1

theorem lookupDoc_setDoc_self {α : Type} (st : Store α) (k : List Char)
    (v : List α) : lookupDoc (setDoc st k v) k = some v := by
  induction st with
  | nil => simp [setDoc, lookupDoc]
  | cons e rest ih =>
    obtain ⟨k', w⟩ := e
    by_cases h : k' = k
    · simp [setDoc, lookupDoc, h]
    · simp [setDoc, lookupDoc, h, ih]

theorem lookupDoc_setDoc_ne {α : Type} (st : Store α) {k k' : List Char}
    (v : List α) (h : k ≠ k') :
    lookupDoc (setDoc st k v) k' = lookupDoc st k' := by
  induction st with
  | nil => simp [setDoc, lookupDoc, h]
  | cons e rest ih =>
    obtain ⟨k0, w⟩ := e
    by_cases h0 : k0 = k
    · subst h0
      simp [setDoc, lookupDoc, h]
    · simp only [setDoc, if_neg h0, lookupDoc]
      by_cases h1 : k0 = k'
      · simp [h1]
      · simp [h1, ih]

theorem setDoc_lookupDoc_eq {α : Type} (st : Store α) {k : List Char}
    {v : List α} (h : lookupDoc st k = some v) : setDoc st k v = st := by
  induction st with
  | nil => simp [lookupDoc] at h
  | cons e rest ih =>
    obtain ⟨k0, w⟩ := e
    by_cases h0 : k0 = k
    · subst h0
      simp only [lookupDoc, if_true, eq_self_iff_true, Option.some.injEq] at h
      simp [setDoc, h]
    · simp only [lookupDoc, if_neg h0] at h
      simp [setDoc, h0, ih h]

/-- A write at a key the scan function rejects leaves any
`filterMap` scan of the store unchanged. -/
theorem filterMap_setDoc {α β : Type} (st : Store α) (k : List Char)
    (v : List α) (f : List Char × List α → Option β)
    (hf : ∀ w, f (k, w) = none) :
    (setDoc st k v).filterMap f = st.filterMap f := by
  induction st with
  | nil => simp [setDoc, hf]
  | cons e rest ih =>
    obtain ⟨k0, w⟩ := e
    by_cases h0 : k0 = k
    · subst h0
      simp [setDoc, List.filterMap_cons, hf]
    · simp [setDoc, h0, List.filterMap_cons, ih]

/-! ## Name normalization -/

/-- `normalize_game_name(name)`: `name.lower().strip().replace(' ', '-')`. -/
def normalize_game_name (name : List Char) : List Char :=
  pyReplaceChar ' ' '-' (pyStrip (pyLower name))

/-- The inline normalization used by the guild-scoped command handlers:
`game.lower().replace(' ', '-')` (no strip). -/
def normalize_inline (game : List Char) : List Char :=
  pyReplaceChar ' ' '-' (pyLower game)

/-! ## Slash-command handlers (guild-scoped revision) -/

/-- `interaction.user.mention`, the f-string `"<@{id}>"`. -/
def mention (user_id : Nat) : String :=
  "<@" ++ String.mk (natChars user_id) ++ ">"

/-- `/addgame`: normalize the name, compute the document path, upsert the
subscription.  Returns the new store and the reply text. -/
def addgame (st : Store Nat) (guild_id : Nat) (game : List Char)
    (user_id : Nat) : Store Nat × String :=
  let normalized_game := normalize_inline game
  let doc_path := get_game_doc_path guild_id normalized_game
  (add_subscription_sync st doc_path user_id,
   "You are now subscribed to LFG notifications for **" ++ String.mk game ++ "**!")

/-- `/removegame` (guild-scoped revision): normalize the name, compute
the document path, remove the subscription.  Its `except` clause replies
with a generic error message — this is the code that runs when the
update raises NotFound for a never-created game; the store is left as it
was. -/
def removegame (st : Store Nat) (guild_id : Nat) (game : List Char)
    (user_id : Nat) : Store Nat × String :=
  let normalized_game := normalize_inline game
  let doc_path := get_game_doc_path guild_id normalized_game
  match remove_subscription_sync st doc_path user_id with
  | Except.ok st' =>
    (st', "You have been unsubscribed from **" ++ String.mk game ++ "**.")
  | Except.error _ =>
    (st, "An error occurred while removing your game subscription.")

/-- `/removegame` of the single-collection revision: documents are keyed
by the normalized name in one fixed collection and the stored ids are
`str(interaction.user.id)`; its `except` clause replies with the benign
"(if you were)" message instead of an error. -/
def removegameV1 (st : Store (List Char)) (game : List Char)
    (user_id : Nat) : Store (List Char) × String :=
  let game_name := normalize_game_name game
  match remove_subscription_sync st game_name (natChars user_id) with
  | Except.ok st' =>
    (st', "You have been unsubscribed from **" ++ String.mk game_name ++ "**.")
  | Except.error _ =>
    (st, "You are no longer subscribed to **" ++ String.mk game_name ++ "** (if you were).")

/-- Outcome of `/lfg`: either the early "no one is subscribed" reply (no
thread is created and nothing is sent to subscribers), or the
announcement thread with its rendered text, the pinged mention strings,
and the follow-up posted in the main channel (sans the external
thread-mention suffix). -/
inductive LfgOutcome where
  | noSubscribers (reply : String)
  | announcement (threadText : String) (users_to_ping : List String) (followup : String)
deriving DecidableEq

def isAnnouncement : LfgOutcome → Bool
  | LfgOutcome.noSubscribers _ => false
  | LfgOutcome.announcement _ _ _ => true

def lfgTargets : LfgOutcome → List String
  | LfgOutcome.noSubscribers _ => []
  | LfgOutcome.announcement _ users _ => users

def lfgThreadText : LfgOutcome → String
  | LfgOutcome.noSubscribers _ => ""
  | LfgOutcome.announcement t _ _ => t

/-- `/lfg`: read the subscribers; with none, reply "no one is subscribed"
and return.  Otherwise ping every subscriber except the requester in a
new thread; with no one else to ping the thread text says so. -/
def lfg (st : Store Nat) (guild_id : Nat) (game : List Char)
    (message : String) (user_id : Nat) : LfgOutcome :=
  let normalized_game := normalize_inline game
  let doc_path := get_game_doc_path guild_id normalized_game
  let subscribers := get_game_subscribers_sync st doc_path
  if subscribers.isEmpty then
    LfgOutcome.noSubscribers
      ("Sorry, no one is subscribed to **" ++ String.mk game ++
        "** yet in this server. Be the first with `/addgame`!")
  else
    let users_to_ping :=
      (subscribers.filter (fun i => decide (i ≠ user_id))).map mention
    let joined := pyJoin " " users_to_ping
    let ping_string :=
      if joined = "" then "You are the only subscriber currently!" else joined
    LfgOutcome.announcement
      ("**LFG for " ++ String.mk (pyTitle game) ++ "!**\n" ++
        "*Started by " ++ mention user_id ++ "*\n\n" ++
        "> " ++ message ++ "\n\n" ++
        (if users_to_ping.isEmpty then "No one else to ping."
          else "Pinging subscribers:") ++ " " ++ ping_string)
      users_to_ping
      ("LFG for **" ++ String.mk game ++ "** started! Join the conversation in the thread:")

/-! ## Autocomplete -/

/-- `load_common_games`: each line of `games.txt`, stripped and
lowercased, empty lines skipped. -/
def load_common_games (lines : List (List Char)) : List (List Char) :=
  (lines.filter (fun l => !(pyStrip l).isEmpty)).map (fun l => pyLower (pyStrip l))

/-- The filtering loop of `game_autocomplete`: append a
`(display, value)` choice for every game containing the typed text, but
never grow the list past 25 entries. -/
def game_autocomplete_loop (current_lower : List Char) :
    List (List Char) → List (String × String) → List (String × String)
  | [], choices => choices
  | game :: rest, choices =>
    if pyContains current_lower game then
      if choices.length < 25 then
        game_autocomplete_loop current_lower rest
          (choices ++
            [(String.mk (pyTitle (pyReplaceChar '-' ' ' game)), String.mk game)])
      else game_autocomplete_loop current_lower rest choices
    else game_autocomplete_loop current_lower rest choices

/-- `game_autocomplete`: merge the startup `common_games` list with the
guild's stored game names (lowercased), deduplicate (`set(...)`), and
keep at most 25 choices whose text contains what the user typed. -/
def game_autocomplete (common_games existing_games : List (List Char))
    (current : List Char) : List (String × String) :=
  let all_games := (common_games ++ existing_games.map pyLower).dedup
  game_autocomplete_loop (pyLower current) all_games []

/-! ## Listing / popularity ranking -/

/-- `all_games.sort(key=lambda x: x['count'], reverse=True)`: descending
stable sort by count (Python's sort is stable; so is insertion sort). -/
def listgames_sort (all_games : List (List Char × Nat)) : List (List Char × Nat) :=
  List.insertionSort (fun a b => b.2 ≤ a.2) all_games

/-- `('subscriber', 'subscribers')[count != 1]`. -/
def listgames_noun (count : Nat) : String :=
  if count ≠ 1 then "subscribers" else "subscriber"

/-- One line of the `/listgames` reply:
`f"- **{name}** ({count} {noun})"` with the displayed name
`game['name'].replace('-', ' ').title()`. -/
def listgames_entry (g : List Char × Nat) : String :=
  "- **" ++ String.mk (pyTitle (pyReplaceChar '-' ' ' g.1)) ++ "** (" ++
    String.mk (natChars g.2) ++ " " ++ listgames_noun g.2 ++ ")"

/-- `/listgames` reply, given the `get_all_subscribed_games_sync`
result. -/
def listgames (all_games : List (List Char × Nat)) : String :=
  if all_games.isEmpty then
    "There are no games with subscribers in this server yet."
  else
    "Here are the current games with subscribers in this server:\n" ++
      pyJoin "\n" ((listgames_sort all_games).map listgames_entry)

/-! ## The normalization the specification describes -/

/-- Replace every maximal run of whitespace by a single hyphen.  Stated
from the spec's words ("replace internal whitespace with a single
hyphen"), for comparison with `normalize_game_name`.  The flag records
whether the previous character belonged to a whitespace run. -/
def collapseRunsAux : Bool → List Char → List Char
  | _, [] => []
  | inRun, c :: cs =>
    if pyIsSpace c then
      (if inRun then [] else ['-']) ++ collapseRunsAux true cs
    else c :: collapseRunsAux false cs

def collapseRuns (s : List Char) : List Char := collapseRunsAux false s

/-- The spec's normalization: lowercase, strip leading and trailing
whitespace, replace each internal whitespace run by a single hyphen. -/
def normalizeSpec (name : List Char) : List Char :=
  collapseRuns (pyStrip (pyLower name))

/-! ## Lemmas about the string primitives -/

theorem pyReplaceChar_eq_map (a b : Char) (l : List Char) :
    pyReplaceChar a b l = l.map (fun c => if c = a then b else c) := by
  induction l with
  | nil => rfl
  | cons c cs ih => simp only [pyReplaceChar, ih, List.map_cons]

theorem mem_pyReplaceChar {a b c : Char} {l : List Char}
    (h : c ∈ pyReplaceChar a b l) : c = b ∨ (c ∈ l ∧ c ≠ a) := by
  rw [pyReplaceChar_eq_map] at h
  obtain ⟨d, hd, hfd⟩ := List.mem_map.mp h
  by_cases hda : d = a
  · rw [if_pos hda] at hfd
    exact Or.inl hfd.symm
  · rw [if_neg hda] at hfd
    exact Or.inr ⟨hfd ▸ hd, hfd ▸ hda⟩

theorem pyReplaceChar_eq_self {a b : Char} {l : List Char} (h : a ∉ l) :
    pyReplaceChar a b l = l := by
  rw [pyReplaceChar_eq_map]
  have : ∀ c ∈ l, (if c = a then b else c) = id c := by
    intro c hc
    have hne : c ≠ a := by
      intro he
      subst he
      exact h hc
    rw [if_neg hne]
    rfl
  rw [List.map_congr_left this, List.map_id]

theorem mem_pyStrip {c : Char} {l : List Char} (h : c ∈ pyStrip l) : c ∈ l := by
  unfold pyStrip at h
  rw [List.mem_reverse] at h
  have h1 := (List.dropWhile_sublist (l := (l.dropWhile pyIsSpace).reverse) pyIsSpace).subset h
  rw [List.mem_reverse] at h1
  exact (List.dropWhile_sublist (l := l) pyIsSpace).subset h1

theorem mem_pyLower {c : Char} {l : List Char} (h : c ∈ pyLower l) :
    ∃ d, c = Char.toLower d := by
  obtain ⟨d, -, hfd⟩ := List.mem_map.mp h
  exact ⟨d, hfd.symm⟩

theorem pyLower_eq_self {l : List Char} (h : ∀ c ∈ l, Char.toLower c = c) :
    pyLower l = l := by
  unfold pyLower
  have : ∀ c ∈ l, Char.toLower c = id c := h
  rw [List.map_congr_left this, List.map_id]

theorem head?_dropWhile (p : Char → Bool) (l : List Char) :
    ∀ c, (l.dropWhile p).head? = some c → p c = false := by
  induction l with
  | nil => intro c hc; simp [List.dropWhile] at hc
  | cons d ds ih =>
    intro c hc
    rw [List.dropWhile_cons] at hc
    by_cases hp : p d
    · rw [if_pos hp] at hc
      exact ih c hc
    · rw [if_neg hp] at hc
      simp only [List.head?_cons, Option.some.injEq] at hc
      rw [← hc]
      exact Bool.eq_false_iff.mpr hp

theorem suffix_getLast? {α : Type} {s l : List α} (hs : s <:+ l)
    (hne : s ≠ []) : s.getLast? = l.getLast? := by
  obtain ⟨pre, rfl⟩ := hs
  rw [List.getLast?_append]
  cases hgl : s.getLast? with
  | none => exact absurd (List.getLast?_eq_none_iff.mp hgl) hne
  | some d => rfl

/-- No leading or trailing Python whitespace. -/
def NoEdgeSpace (l : List Char) : Prop :=
  (∀ c, l.head? = some c → pyIsSpace c = false) ∧
  (∀ c, l.getLast? = some c → pyIsSpace c = false)

theorem dropWhile_eq_self_of_head (p : Char → Bool) (l : List Char)
    (h : ∀ c, l.head? = some c → p c = false) : l.dropWhile p = l := by
  cases l with
  | nil => rfl
  | cons c cs =>
    rw [List.dropWhile_cons, h c rfl]
    simp

theorem pyStrip_eq_self {l : List Char} (h : NoEdgeSpace l) : pyStrip l = l := by
  obtain ⟨h1, h2⟩ := h
  unfold pyStrip
  rw [dropWhile_eq_self_of_head _ _ h1]
  rw [dropWhile_eq_self_of_head _ _ ?hrev]
  · exact List.reverse_reverse l
  · intro c hc
    rw [List.head?_reverse] at hc
    exact h2 c hc

theorem pyStrip_noEdgeSpace (l : List Char) : NoEdgeSpace (pyStrip l) := by
  constructor
  · intro c hc
    unfold pyStrip at hc
    rw [List.head?_reverse] at hc
    have hne : (l.dropWhile pyIsSpace).reverse.dropWhile pyIsSpace ≠ [] := by
      intro h0
      rw [h0] at hc
      simp at hc
    rw [suffix_getLast? (List.dropWhile_suffix pyIsSpace) hne,
      List.getLast?_reverse] at hc
    exact head?_dropWhile pyIsSpace l c hc
  · intro c hc
    unfold pyStrip at hc
    rw [List.getLast?_reverse] at hc
    exact head?_dropWhile pyIsSpace _ c hc

/-! ## Claim C9 — `normalize` is idempotent -/

/-- C9: `normalize_game_name` is a pure function and is idempotent:
normalizing an already-normalized name changes nothing. -/
theorem normalize_game_name_idempotent (s : List Char) :
    normalize_game_name (normalize_game_name s) = normalize_game_name s := by
  unfold normalize_game_name
  set t := pyStrip (pyLower s) with ht
  set r := pyReplaceChar ' ' '-' t with hr
  have hmem : ∀ c ∈ r, Char.toLower c = c := by
    intro c hc
    rcases mem_pyReplaceChar hc with hb | ⟨hct, -⟩
    · subst hb; decide
    · obtain ⟨d, rfl⟩ := mem_pyLower (mem_pyStrip hct)
      exact char_toLower_toLower d
  have hlow : pyLower r = r := pyLower_eq_self hmem
  have hedge : NoEdgeSpace r := by
    obtain ⟨e1, e2⟩ := pyStrip_noEdgeSpace (pyLower s)
    constructor
    · intro c hc
      rw [hr, pyReplaceChar_eq_map, List.head?_map] at hc
      cases hh : t.head? with
      | none => rw [hh] at hc; simp [Option.map] at hc
      | some d =>
        rw [hh] at hc
        simp only [Option.map_some', Option.some.injEq] at hc
        have hd := e1 d hh
        by_cases hds : d = ' '
        · rw [hds] at hd; exact absurd hd (by decide)
        · rw [if_neg hds] at hc; rw [← hc]; exact hd
    · intro c hc
      rw [hr, pyReplaceChar_eq_map, List.getLast?_map] at hc
      cases hh : t.getLast? with
      | none => rw [hh] at hc; simp [Option.map] at hc
      | some d =>
        rw [hh] at hc
        simp only [Option.map_some', Option.some.injEq] at hc
        have hd := e2 d hh
        by_cases hds : d = ' '
        · rw [hds] at hd; exact absurd hd (by decide)
        · rw [if_neg hds] at hc; rw [← hc]; exact hd
  have hnosp : ' ' ∉ r := by
    intro hsp
    rcases mem_pyReplaceChar hsp with hb | ⟨-, hne⟩
    · exact absurd hb (by decide)
    · exact hne rfl
  rw [hlow, pyStrip_eq_self hedge, pyReplaceChar_eq_self hnosp]

/-! ## Claim C5 — what `normalize` does to whitespace -/

/-- C5 counterexample: the claim says a run of internal whitespace
becomes a single hyphen, but `replace(' ', '-')` maps every space
character to its own hyphen: two internal spaces yield two hyphens, and
the source normalization disagrees with the spec's run-collapsing
normalization on the input `"a  b"`. -/
theorem normalize_run_counterexample :
    normalize_game_name "a  b".data = "a--b".data ∧
    normalizeSpec "a  b".data = "a-b".data ∧
    normalize_game_name "a  b".data ≠ normalizeSpec "a  b".data :=
  ⟨by decide, by decide, by decide⟩

/-- C5 (amended): for every input, `normalize_game_name` lowercases the
string, strips leading and trailing whitespace, and then replaces each
remaining space character by one hyphen individually — a run of k spaces
becomes k hyphens (not one), and internal non-space whitespace such as a
tab is left alone. -/
theorem normalize_per_space_char :
    (∀ name : List Char,
      normalize_game_name name =
        (pyStrip (pyLower name)).map (fun c => if c = ' ' then '-' else c)) ∧
    normalize_game_name "a  b".data = "a--b".data ∧
    normalize_game_name ['a', '\t', 'b'] = ['a', '\t', 'b'] :=
  ⟨fun name => pyReplaceChar_eq_map ' ' '-' (pyStrip (pyLower name)),
    by decide, by decide⟩

/-! ## Lemmas about the array transforms -/

theorem arrayUnion_of_mem {α : Type} [DecidableEq α] {arr : List α} {u : α}
    (h : u ∈ arr) : arrayUnion arr [u] = arr := by
  unfold arrayUnion
  rw [List.filter_cons]
  simp [h]

theorem mem_arrayUnion_self {α : Type} [DecidableEq α] (arr : List α) (u : α) :
    u ∈ arrayUnion arr [u] := by
  unfold arrayUnion
  by_cases h : u ∈ arr
  · exact List.mem_append_left _ h
  · apply List.mem_append_right
    rw [List.filter_cons]
    simp [h]

theorem arrayRemove_of_not_mem {α : Type} [DecidableEq α] {arr : List α}
    {u : α} (h : u ∉ arr) : arrayRemove arr [u] = arr := by
  unfold arrayRemove
  apply List.filter_eq_self.mpr
  intro x hx
  simp only [decide_eq_true_eq]
  intro hmem
  simp only [List.mem_singleton] at hmem
  exact h (hmem ▸ hx)

/-! ## Claim C6 — subscribe is idempotent -/

theorem add_subscription_sync_idempotent {α : Type} [DecidableEq α]
    (st : Store α) (doc_path : List Char) (user_id : α) :
    add_subscription_sync (add_subscription_sync st doc_path user_id)
        doc_path user_id =
      add_subscription_sync st doc_path user_id := by
  have key : ∀ st' v, lookupDoc st' doc_path = v →
      add_subscription_sync
          (setDoc st' doc_path (arrayUnion (v.getD []) [user_id]))
          doc_path user_id =
        setDoc st' doc_path (arrayUnion (v.getD []) [user_id]) := by
    intro st' v hv
    unfold add_subscription_sync
    rw [lookupDoc_setDoc_self]
    dsimp only
    rw [arrayUnion_of_mem (mem_arrayUnion_self _ user_id)]
    exact setDoc_lookupDoc_eq _ (lookupDoc_setDoc_self st' doc_path _)
  unfold add_subscription_sync
  cases hl : lookupDoc st doc_path with
  | none =>
    dsimp only
    exact key st none hl
  | some subs =>
    dsimp only
    exact key st (some subs) hl

/-- C6: subscribing the same user to the same game twice yields the same
store — and hence the same subscriber set, of the same size — as
subscribing once: the second `ArrayUnion` upsert is a no-op. -/
theorem addgame_idempotent (st : Store Nat) (guild_id : Nat)
    (game : List Char) (user_id : Nat) :
    (addgame (addgame st guild_id game user_id).1 guild_id game user_id).1 =
        (addgame st guild_id game user_id).1 ∧
      (get_game_subscribers_sync
          (addgame (addgame st guild_id game user_id).1 guild_id game user_id).1
          (get_game_doc_path guild_id (normalize_inline game))).length =
        (get_game_subscribers_sync (addgame st guild_id game user_id).1
          (get_game_doc_path guild_id (normalize_inline game))).length := by
  have h : (addgame (addgame st guild_id game user_id).1 guild_id game user_id).1 =
      (addgame st guild_id game user_id).1 := by
    unfold addgame
    exact add_subscription_sync_idempotent st _ user_id
  exact ⟨h, by rw [h]⟩

/-! ## Claim C1 — unsubscribing an absent user -/

/-- C1 counterexample: for a game whose record was never created, the
guild-scoped `/removegame` handler replies with an error message rather
than succeeding silently: the underlying Firestore `update` raises
NotFound and the handler's `except` clause reports it. -/
theorem removegame_missing_record_reports_error :
    (removegame ([] : Store Nat) 1 "x".data 5).2 =
        "An error occurred while removing your game subscription." ∧
      (removegame ([] : Store Nat) 1 "x".data 5).2 ≠
        "You have been unsubscribed from **x**." :=
  ⟨by decide, by decide⟩

/-- C1 (amended): when a record for the game exists, unsubscribing a user
absent from its subscriber set succeeds with the normal success reply and
leaves the store — hence the subscriber set — unchanged.  When no record
exists, the update fails: the guild-scoped handler reports a generic
error message (the single-collection revision instead swallows it with a
benign "(if you were)" reply); in every case the store is unchanged. -/
theorem removegame_absent_user (st : Store Nat) (st1 : Store (List Char))
    (guild_id : Nat) (game : List Char) (user_id : Nat) :
    (∀ subs,
      lookupDoc st (get_game_doc_path guild_id (normalize_inline game)) =
          some subs →
        user_id ∉ subs →
        removegame st guild_id game user_id =
          (st, "You have been unsubscribed from **" ++ String.mk game ++ "**.")) ∧
    (lookupDoc st (get_game_doc_path guild_id (normalize_inline game)) = none →
      removegame st guild_id game user_id =
        (st, "An error occurred while removing your game subscription.")) ∧
    (∀ subs,
      lookupDoc st1 (normalize_game_name game) = some subs →
        natChars user_id ∉ subs →
        removegameV1 st1 game user_id =
          (st1, "You have been unsubscribed from **" ++
            String.mk (normalize_game_name game) ++ "**.")) ∧
    (lookupDoc st1 (normalize_game_name game) = none →
      removegameV1 st1 game user_id =
        (st1, "You are no longer subscribed to **" ++
          String.mk (normalize_game_name game) ++ "** (if you were).")) := by
  refine ⟨?_, ?_, ?_, ?_⟩
  · intro subs hsome habs
    unfold removegame remove_subscription_sync
    dsimp only
    rw [hsome]
    dsimp only
    rw [arrayRemove_of_not_mem habs, setDoc_lookupDoc_eq _ hsome]
  · intro hnone
    unfold removegame remove_subscription_sync
    dsimp only
    rw [hnone]
  · intro subs hsome habs
    unfold removegameV1 remove_subscription_sync
    dsimp only
    rw [hsome]
    dsimp only
    rw [arrayRemove_of_not_mem habs, setDoc_lookupDoc_eq _ hsome]
  · intro hnone
    unfold removegameV1 remove_subscription_sync
    dsimp only
    rw [hnone]

/-- C1 witness: both no-record branches and the absent-user branch of the
amended statement at concrete inputs. -/
theorem removegame_absent_user_witness :
    removegame [(get_game_doc_path 1 "x".data, [7])] 1 "x".data 5 =
      ([(get_game_doc_path 1 "x".data, [7])],
        "You have been unsubscribed from **x**.") ∧
    removegame ([] : Store Nat) 1 "x".data 5 =
      ([], "An error occurred while removing your game subscription.") ∧
    removegameV1 ([] : Store (List Char)) "x".data 5 =
      ([], "You are no longer subscribed to **x** (if you were).") := by
  refine ⟨?_, ?_, ?_⟩
  · exact (removegame_absent_user [(get_game_doc_path 1 "x".data, [7])] [] 1
      "x".data 5).1 [7] (by decide) (by decide)
  · exact (removegame_absent_user [] [] 1 "x".data 5).2.1 (by decide)
  · exact (removegame_absent_user [] [] 1 "x".data 5).2.2.2 (by decide)

/-! ## Claim C10 — unsubscribe never creates a record -/

/-- C10: unsubscribing from a game that has no record creates none: the
handler leaves the store untouched, so the set of stored game keys seen
by the autocomplete scan is unchanged. -/
theorem removegame_creates_nothing (st : Store Nat) (guild_id : Nat)
    (game : List Char) (user_id : Nat) (g : Nat) :
    lookupDoc st (get_game_doc_path guild_id (normalize_inline game)) = none →
      (removegame st guild_id game user_id).1 = st ∧
      get_game_names_sync (removegame st guild_id game user_id).1 g =
        get_game_names_sync st g := by
  intro h
  have h1 : (removegame st guild_id game user_id).1 = st := by
    unfold removegame remove_subscription_sync
    dsimp only
    rw [h]
  exact ⟨h1, by rw [h1]⟩

/-- C10 witness: the empty store, guild 1, game "x". -/
theorem removegame_creates_nothing_witness :
    lookupDoc ([] : Store Nat) (get_game_doc_path 1 (normalize_inline "x".data)) =
        none ∧
      (removegame ([] : Store Nat) 1 "x".data 5).1 = [] ∧
      get_game_names_sync (removegame ([] : Store Nat) 1 "x".data 5).1 1 =
        get_game_names_sync ([] : Store Nat) 1 :=
  ⟨by decide, removegame_creates_nothing [] 1 "x".data 5 1 (by decide)⟩

/-! ## Claim C2 — guild isolation -/

/-- Everything the handlers ever read for one guild: a game document's
subscribers (`/lfg`), the stored game names (autocomplete), the
popularity data (`/listgames`) and a user's subscriptions (`/mygames`). -/
def guildReadout (st : Store Nat) (g : Nat) (game : List Char)
    (user_id : Nat) :
    List Nat × List (List Char) × List (List Char × Nat) × List (List Char) :=
  (get_game_subscribers_sync st (get_game_doc_path g (normalize_inline game)),
    get_game_names_sync st g,
    get_all_subscribed_games_sync st g,
    get_user_subscribed_games_sync st g user_id)

theorem guildReadout_setDoc {st : Store Nat} {g1 g2 : Nat} (hg : g1 ≠ g2)
    (n1 : List Char) (v : List Nat) (game2 : List Char) (u2 : Nat) :
    guildReadout (setDoc st (get_game_doc_path g1 n1) v) g2 game2 u2 =
      guildReadout st g2 game2 u2 := by
  have hch : childId? (get_guild_collection_path g2) (get_game_doc_path g1 n1) =
      none := childId?_other_guild hg n1
  unfold guildReadout
  refine congrArg₂ Prod.mk ?_ (congrArg₂ Prod.mk ?_ (congrArg₂ Prod.mk ?_ ?_))
  · unfold get_game_subscribers_sync
    rw [lookupDoc_setDoc_ne st v (doc_path_ne hg n1 (normalize_inline game2))]
  · unfold get_game_names_sync
    exact filterMap_setDoc st _ v _ (fun w => hch)
  · unfold get_all_subscribed_games_sync
    refine filterMap_setDoc st _ v _ (fun w => ?_)
    rw [hch]
  · unfold get_user_subscribed_games_sync
    refine filterMap_setDoc st _ v _ (fun w => ?_)
    rw [hch]

/-- C2: subscription records are guild-scoped.  A subscribe or
unsubscribe performed in one guild changes nothing that any read
operation of a different guild can observe: the other guild's document
lookups and collection streams are untouched. -/
theorem guild_isolation (st : Store Nat) {g1 g2 : Nat} (hg : g1 ≠ g2)
    (game game2 : List Char) (user_id u2 : Nat) :
    guildReadout (addgame st g1 game user_id).1 g2 game2 u2 =
        guildReadout st g2 game2 u2 ∧
      guildReadout (removegame st g1 game user_id).1 g2 game2 u2 =
        guildReadout st g2 game2 u2 := by
  constructor
  · have hx : ∃ v, (addgame st g1 game user_id).1 =
        setDoc st (get_game_doc_path g1 (normalize_inline game)) v := by
      unfold addgame add_subscription_sync
      dsimp only
      cases lookupDoc st (get_game_doc_path g1 (normalize_inline game)) with
      | none => exact ⟨_, rfl⟩
      | some subs => exact ⟨_, rfl⟩
    obtain ⟨v, hv⟩ := hx
    rw [hv]
    exact guildReadout_setDoc hg _ v game2 u2
  · have hx : (removegame st g1 game user_id).1 = st ∨
        ∃ v, (removegame st g1 game user_id).1 =
          setDoc st (get_game_doc_path g1 (normalize_inline game)) v := by
      unfold removegame remove_subscription_sync
      dsimp only
      cases lookupDoc st (get_game_doc_path g1 (normalize_inline game)) with
      | none => exact Or.inl rfl
      | some subs => exact Or.inr ⟨_, rfl⟩
    rcases hx with hv | ⟨v, hv⟩
    · rw [hv]
    · rw [hv]
      exact guildReadout_setDoc hg _ v game2 u2

/-- C2 witness: guilds 1 and 2 on a small concrete store. -/
theorem guild_isolation_witness :
    (1 : Nat) ≠ 2 ∧
      (guildReadout
          (addgame [(get_game_doc_path 2 "y".data, [9])] 1 "x".data 5).1
          2 "y".data 9 =
        guildReadout [(get_game_doc_path 2 "y".data, [9])] 2 "y".data 9 ∧
      guildReadout
          (removegame [(get_game_doc_path 2 "y".data, [9])] 1 "x".data 5).1
          2 "y".data 9 =
        guildReadout [(get_game_doc_path 2 "y".data, [9])] 2 "y".data 9) :=
  ⟨by decide,
    guild_isolation [(get_game_doc_path 2 "y".data, [9])] (by decide)
      "x".data "y".data 5 9⟩

/-! ## Claims C3 and C4 — the `/lfg` broadcast -/

theorem mention_inj {a b : Nat} (h : mention a = mention b) : a = b := by
  unfold mention at h
  have hd := congrArg String.data h
  simp only [String.data_append] at hd
  rw [List.append_assoc, List.append_assoc] at hd
  have h1 := List.append_cancel_left hd
  have h2 := List.append_cancel_right h1
  exact natChars_inj h2

/-- C3 counterexample: with an empty subscriber set (here: no record at
all) the handler replies "no one is subscribed" and returns early — no
announcement is produced, contradicting "the caller never skips sending
the announcement merely because the target list is empty". -/
theorem lfg_empty_skips_announcement :
    isAnnouncement (lfg ([] : Store Nat) 1 "x".data "hi" 5) = false ∧
      lfg ([] : Store Nat) 1 "x".data "hi" 5 =
        LfgOutcome.noSubscribers
          "Sorry, no one is subscribed to **x** yet in this server. Be the first with `/addgame`!" :=
  ⟨by decide, by decide⟩

theorem lfg_sole_core (st : Store Nat) (guild_id : Nat) (game : List Char)
    (message : String) (user_id : Nat)
    (hsubs : get_game_subscribers_sync st
      (get_game_doc_path guild_id (normalize_inline game)) = [user_id]) :
    isAnnouncement (lfg st guild_id game message user_id) = true ∧
      lfgTargets (lfg st guild_id game message user_id) = [] ∧
      "No one else to ping. You are the only subscriber currently!".data <:+:
        (lfgThreadText (lfg st guild_id game message user_id)).data := by
  have hlfg : lfg st guild_id game message user_id =
        LfgOutcome.announcement
          ("**LFG for " ++ String.mk (pyTitle game) ++ "!**\n" ++
            "*Started by " ++ mention user_id ++ "*\n\n" ++
            "> " ++ message ++ "\n\n" ++
            "No one else to ping." ++ " " ++
            "You are the only subscriber currently!")
          []
          ("LFG for **" ++ String.mk game ++
            "** started! Join the conversation in the thread:") := by
    unfold lfg
    dsimp only
    rw [hsubs]
    rw [if_neg (by simp)]
    have hping : ([user_id].filter (fun i => decide (i ≠ user_id))).map mention =
        ([] : List String) := by
      simp [List.filter]
    rw [hping]
    dsimp [pyJoin]
  rw [hlfg]
  refine ⟨rfl, rfl, ?_⟩
  dsimp only [lfgThreadText]
  simp only [String.data_append]
  refine ⟨"**LFG for ".data ++ (String.mk (pyTitle game)).data ++
    "!**\n".data ++ "*Started by ".data ++ (mention user_id).data ++
    "*\n\n".data ++ "> ".data ++ message.data ++ "\n\n".data, [], ?_⟩
  simp [List.append_assoc]

theorem lfg_empty_core (st : Store Nat) (guild_id : Nat) (game : List Char)
    (message : String) (user_id : Nat)
    (hsubs : get_game_subscribers_sync st
      (get_game_doc_path guild_id (normalize_inline game)) = []) :
    lfg st guild_id game message user_id =
      LfgOutcome.noSubscribers
        ("Sorry, no one is subscribed to **" ++ String.mk game ++
          "** yet in this server. Be the first with `/addgame`!") := by
  unfold lfg
  dsimp only
  rw [hsubs]
  rfl

/-- C3 (amended): when the requester is the sole subscriber the broadcast
still succeeds — the announcement is produced with an empty target list
and its text says no one else is subscribed; but when the subscriber set
is empty (the record is missing or its array is empty) the handler sends
the "no one is subscribed yet" reply instead and skips the
announcement. -/
theorem lfg_sole_subscriber (st : Store Nat) (guild_id : Nat)
    (game : List Char) (message : String) (user_id : Nat) :
    (get_game_subscribers_sync st
          (get_game_doc_path guild_id (normalize_inline game)) = [user_id] →
        isAnnouncement (lfg st guild_id game message user_id) = true ∧
        lfgTargets (lfg st guild_id game message user_id) = [] ∧
        "No one else to ping. You are the only subscriber currently!".data <:+:
          (lfgThreadText (lfg st guild_id game message user_id)).data) ∧
    (get_game_subscribers_sync st
          (get_game_doc_path guild_id (normalize_inline game)) = [] →
        lfg st guild_id game message user_id =
          LfgOutcome.noSubscribers
            ("Sorry, no one is subscribed to **" ++ String.mk game ++
              "** yet in this server. Be the first with `/addgame`!") ∧
        isAnnouncement (lfg st guild_id game message user_id) = false) := by
  constructor
  · intro hsubs
    exact lfg_sole_core st guild_id game message user_id hsubs
  · intro hsubs
    have hlfg := lfg_empty_core st guild_id game message user_id hsubs
    rw [hlfg]
    exact ⟨rfl, rfl⟩

/-- C3 witness: guild 1, game "x", requester 5 as sole subscriber, and
the empty store for the empty-set branch. -/
theorem lfg_sole_subscriber_witness :
    (get_game_subscribers_sync [(get_game_doc_path 1 "x".data, [5])]
        (get_game_doc_path 1 (normalize_inline "x".data)) = [5] ∧
      isAnnouncement
          (lfg [(get_game_doc_path 1 "x".data, [5])] 1 "x".data "hi" 5) =
        true ∧
      lfgTargets (lfg [(get_game_doc_path 1 "x".data, [5])] 1 "x".data "hi" 5) =
        [] ∧
      "No one else to ping. You are the only subscriber currently!".data <:+:
        (lfgThreadText
            (lfg [(get_game_doc_path 1 "x".data, [5])] 1 "x".data "hi" 5)).data) ∧
    (lfg ([] : Store Nat) 1 "x".data "hi" 5 =
        LfgOutcome.noSubscribers
          ("Sorry, no one is subscribed to **" ++ String.mk "x".data ++
            "** yet in this server. Be the first with `/addgame`!") ∧
      isAnnouncement (lfg ([] : Store Nat) 1 "x".data "hi" 5) = false) := by
  constructor
  · have h := (lfg_sole_subscriber [(get_game_doc_path 1 "x".data, [5])] 1
      "x".data "hi" 5).1 (by decide)
    exact ⟨by decide, h.1, h.2.1, h.2.2⟩
  · exact (lfg_sole_subscriber [] 1 "x".data "hi" 5).2 (by decide)

/-- C4: whenever the announcement is produced, its target list is exactly
the subscriber list minus the requester (as mention strings); the
requester's own mention is never among the targets; and when the
requester is the sole subscriber the target list is empty and the thread
text says no one else is subscribed. -/
theorem lfg_excludes_requester (st : Store Nat) (guild_id : Nat)
    (game : List Char) (message : String) (user_id : Nat) :
    (get_game_subscribers_sync st
          (get_game_doc_path guild_id (normalize_inline game)) ≠ [] →
        isAnnouncement (lfg st guild_id game message user_id) = true ∧
        lfgTargets (lfg st guild_id game message user_id) =
          ((get_game_subscribers_sync st
              (get_game_doc_path guild_id (normalize_inline game))).filter
            (fun i => decide (i ≠ user_id))).map mention) ∧
    mention user_id ∉ lfgTargets (lfg st guild_id game message user_id) ∧
    (get_game_subscribers_sync st
          (get_game_doc_path guild_id (normalize_inline game)) = [user_id] →
        lfgTargets (lfg st guild_id game message user_id) = [] ∧
        "No one else to ping. You are the only subscriber currently!".data <:+:
          (lfgThreadText (lfg st guild_id game message user_id)).data) := by
  have hmain : get_game_subscribers_sync st
        (get_game_doc_path guild_id (normalize_inline game)) ≠ [] →
      isAnnouncement (lfg st guild_id game message user_id) = true ∧
      lfgTargets (lfg st guild_id game message user_id) =
        ((get_game_subscribers_sync st
            (get_game_doc_path guild_id (normalize_inline game))).filter
          (fun i => decide (i ≠ user_id))).map mention := by
    intro hne
    unfold lfg
    dsimp only
    rw [if_neg (by simpa using hne)]
    exact ⟨rfl, rfl⟩
  refine ⟨hmain, ?_, ?_⟩
  · by_cases hne : get_game_subscribers_sync st
        (get_game_doc_path guild_id (normalize_inline game)) = []
    · rw [lfg_empty_core st guild_id game message user_id hne]
      simp [lfgTargets]
    · rw [(hmain hne).2]
      intro hmem
      obtain ⟨i, hi, hmi⟩ := List.mem_map.mp hmem
      have hineq : i ≠ user_id := by
        have := List.of_mem_filter hi
        simpa using this
      exact hineq (mention_inj hmi)
  · intro hsubs
    have h := lfg_sole_core st guild_id game message user_id hsubs
    exact ⟨h.2.1, h.2.2⟩

/-- C4 witness: subscribers {5, 7}, requester 5: target list is exactly
the mention of 7; plus the sole-subscriber branch. -/
theorem lfg_excludes_requester_witness :
    (get_game_subscribers_sync [(get_game_doc_path 1 "x".data, [5, 7])]
        (get_game_doc_path 1 (normalize_inline "x".data)) ≠ [] ∧
      isAnnouncement
          (lfg [(get_game_doc_path 1 "x".data, [5, 7])] 1 "x".data "hi" 5) =
        true ∧
      lfgTargets
          (lfg [(get_game_doc_path 1 "x".data, [5, 7])] 1 "x".data "hi" 5) =
        (([5, 7].filter (fun i => decide (i ≠ 5))).map mention) ∧
      mention 5 ∉
        lfgTargets
          (lfg [(get_game_doc_path 1 "x".data, [5, 7])] 1 "x".data "hi" 5)) ∧
    (get_game_subscribers_sync [(get_game_doc_path 1 "x".data, [5])]
        (get_game_doc_path 1 (normalize_inline "x".data)) = [5] ∧
      lfgTargets (lfg [(get_game_doc_path 1 "x".data, [5])] 1 "x".data "hi" 5) =
        []) := by
  constructor
  · have h := lfg_excludes_requester [(get_game_doc_path 1 "x".data, [5, 7])] 1
      "x".data "hi" 5
    have h1 := h.1 (by decide)
    refine ⟨by decide, h1.1, ?_, h.2.1⟩
    rw [h1.2]
    congr 1
  · have h := lfg_excludes_requester [(get_game_doc_path 1 "x".data, [5])] 1
      "x".data "hi" 5
    exact ⟨by decide, (h.2.2 (by decide)).1⟩

/-! ## Claim C7 — autocomplete bound and filtering -/

theorem game_autocomplete_loop_length (current_lower : List Char) :
    ∀ (games : List (List Char)) (choices : List (String × String)),
      choices.length ≤ 25 →
      (game_autocomplete_loop current_lower games choices).length ≤ 25 := by
  intro games
  induction games with
  | nil => intro choices h; exact h
  | cons game rest ih =>
    intro choices h
    unfold game_autocomplete_loop
    by_cases hc : pyContains current_lower game
    · rw [if_pos hc]
      by_cases hl : choices.length < 25
      · rw [if_pos hl]
        apply ih
        rw [List.length_append, List.length_singleton]
        omega
      · rw [if_neg hl]
        exact ih choices h
    · rw [if_neg hc]
      exact ih choices h

theorem game_autocomplete_loop_mem (current_lower : List Char)
    (Q : String × String → Prop) :
    ∀ (games : List (List Char)) (choices : List (String × String)),
      (∀ g ∈ games, pyContains current_lower g = true →
        Q (String.mk (pyTitle (pyReplaceChar '-' ' ' g)), String.mk g)) →
      (∀ p ∈ choices, Q p) →
      ∀ p ∈ game_autocomplete_loop current_lower games choices, Q p := by
  intro games
  induction games with
  | nil => intro choices _ hch p hp; exact hch p hp
  | cons game rest ih =>
    intro choices hg hch p hp
    have hg' : ∀ g ∈ rest, pyContains current_lower g = true →
        Q (String.mk (pyTitle (pyReplaceChar '-' ' ' g)), String.mk g) :=
      fun g hmem => hg g (List.mem_cons_of_mem game hmem)
    unfold game_autocomplete_loop at hp
    by_cases hc : pyContains current_lower game
    · rw [if_pos hc] at hp
      by_cases hl : choices.length < 25
      · rw [if_pos hl] at hp
        refine ih _ hg' ?_ p hp
        intro q hq
        rcases List.mem_append.mp hq with hq1 | hq2
        · exact hch q hq1
        · rw [List.mem_singleton] at hq2
          subst hq2
          exact hg game (List.mem_cons_self game rest) hc
      · rw [if_neg hl] at hp
        exact ih _ hg' hch p hp
    · rw [if_neg hc] at hp
      exact ih _ hg' hch p hp

/-- C7: for every seed list (as loaded: lowercase), stored key set and
typed text, the autocomplete returns at most 25 choices — even when the
deduplicated union has more candidates — and every returned choice's
lowercase value contains the lowercased typed text as a substring. -/
theorem game_autocomplete_spec (common_games existing_games : List (List Char))
    (current : List Char) (hcommon : ∀ g ∈ common_games, pyLower g = g) :
    (game_autocomplete common_games existing_games current).length ≤ 25 ∧
      ∀ p ∈ game_autocomplete common_games existing_games current,
        pyContains (pyLower current) (pyLower p.2.data) = true := by
  have hall : ∀ g ∈ (common_games ++ existing_games.map pyLower).dedup,
      pyLower g = g := by
    intro g hg
    rw [List.mem_dedup] at hg
    rcases List.mem_append.mp hg with h | h
    · exact hcommon g h
    · obtain ⟨x, -, rfl⟩ := List.mem_map.mp h
      exact pyLower_idem x
  constructor
  · exact game_autocomplete_loop_length _ _ [] (by simp)
  · intro p hp
    refine game_autocomplete_loop_mem (pyLower current)
      (fun q => pyContains (pyLower current) (pyLower q.2.data) = true)
      _ [] ?_ (by simp) p hp
    intro g hg hcont
    have hfix := hall g hg
    simpa [hfix] using hcont

/-- C7 witness: 26 candidate games all containing the typed letter "a":
the union exceeds the limit and the result is truncated to 25. -/
theorem game_autocomplete_spec_witness :
    (∀ g ∈ (List.range 26).map (fun i => 'a' :: natChars i), pyLower g = g) ∧
      ((game_autocomplete ((List.range 26).map (fun i => 'a' :: natChars i))
            [] "a".data).length ≤ 25 ∧
        ∀ p ∈ game_autocomplete ((List.range 26).map (fun i => 'a' :: natChars i))
            [] "a".data,
          pyContains (pyLower "a".data) (pyLower p.2.data) = true) :=
  ⟨by decide,
    game_autocomplete_spec ((List.range 26).map (fun i => 'a' :: natChars i))
      [] "a".data (by decide)⟩

/-! ## Claim C8 — popularity ranking -/

instance : IsTotal (List Char × Nat) (fun a b => b.2 ≤ a.2) :=
  ⟨fun a b => Nat.le_total b.2 a.2⟩

instance : IsTrans (List Char × Nat) (fun a b => b.2 ≤ a.2) :=
  ⟨fun _ _ _ hab hbc => Nat.le_trans hbc hab⟩

/-- C8: the popularity listing is sorted descending by subscriber count
(the given example sorts as b, c, a), the unit noun is singular exactly
when the count is 1, the empty input produces the fixed "no games yet"
message, and a non-empty input renders the sorted entries. -/
theorem listgames_ranking (games : List (List Char × Nat)) :
    List.Sorted (fun a b : List Char × Nat => b.2 ≤ a.2)
        (listgames_sort games) ∧
      listgames_sort [("a".data, 1), ("b".data, 3), ("c".data, 2)] =
        [("b".data, 3), ("c".data, 2), ("a".data, 1)] ∧
      (∀ count : Nat, listgames_noun count = "subscriber" ↔ count = 1) ∧
      listgames [] = "There are no games with subscribers in this server yet." ∧
      (games ≠ [] →
        listgames games =
          "Here are the current games with subscribers in this server:\n" ++
            pyJoin "\n" ((listgames_sort games).map listgames_entry)) := by
  refine ⟨?_, by decide, ?_, rfl, ?_⟩
  · exact List.sorted_insertionSort _ games
  · intro count
    unfold listgames_noun
    by_cases h : count = 1
    · rw [if_neg (by omega)]
      simp [h]
    · rw [if_pos h]
      constructor
      · intro he
        exact absurd he (by decide)
      · intro he
        exact absurd he h
  · intro hne
    unfold listgames
    rw [if_neg (by simpa using hne)]

/-- C8 witness: a singleton list exercises the non-empty rendering. -/
theorem listgames_ranking_witness :
    ([("a".data, (1 : Nat))] ≠ []) ∧
      listgames [("a".data, 1)] =
        "Here are the current games with subscribers in this server:\n" ++
          pyJoin "\n" ((listgames_sort [("a".data, 1)]).map listgames_entry) :=
  ⟨by decide, (listgames_ranking [("a".data, 1)]).2.2.2.2 (by decide)⟩

end LFG
